import Mathlib

/-!
# Rabin trapdoor permutation binding (`Code/C++Src/Jni/RabinPermutation.cpp`)

Shallow embedding of the native functions of `RabinPermutation.cpp`.

* A Crypto++ `Integer` is a Lean `Int`.
* The native object behind `tpPtr` is a `TrapdoorFunction`: either a
  `RabinFunction` (public key) or an `InvertibleRabinFunction` (private key).
* Functions the file calls but does not define (Crypto++ methods, `Utils`
  helpers) are arguments of the embedded function, so that a theorem holds
  for every behaviour of the callee; where a claim is about the value such a
  callee computes, the callee is modelled from the specification and marked so.
* The random pool created inside a native function is an explicit argument.
-/

namespace Scapi

/-- Error kinds named by the specification (section 7). -/
inductive RabinError where
  | KeyMismatch
  | KeyGenerationFailure
  | MissingPrivateKey
  | InvalidInput
  deriving DecidableEq, Repr

/-- Members of a Crypto++ `RabinFunction` object: modulus and the two selectors. -/
structure RabinFunction where
  m_n : Int
  m_r : Int
  m_s : Int
  deriving DecidableEq, Repr

/-- Members of a Crypto++ `InvertibleRabinFunction` object. -/
structure InvertibleRabinFunction where
  m_n : Int
  m_r : Int
  m_s : Int
  m_p : Int
  m_q : Int
  m_u : Int
  deriving DecidableEq, Repr

/-- The object a `TrapdoorFunction *tpPtr` points to: `initRabinNRS` allocates a
`RabinFunction`, `initRabinAll` and `initRabinKeySize` an `InvertibleRabinFunction`. -/
inductive TrapdoorFunction where
  | rabin (f : RabinFunction)
  | invertible (f : InvertibleRabinFunction)
  deriving DecidableEq, Repr

/-- State of an `AutoSeededRandomPool`: the stream of values it will supply. -/
abbrev AutoSeededRandomPool := Nat → Nat

/-- `((RabinFunction *) tpPtr) -> GetModulus()`. -/
def GetModulus : TrapdoorFunction → Int
  | .rabin f => f.m_n
  | .invertible f => f.m_n

/-- `((InvertibleRabinFunction *) tpPtr) -> GetPrime1()`. On an object allocated as a
`RabinFunction` the cast reads past the object; `beyond` is what lies there. -/
def GetPrime1 (beyond : Int × Int) : TrapdoorFunction → Int
  | .rabin _ => beyond.1
  | .invertible f => f.m_p

/-- `((InvertibleRabinFunction *) tpPtr) -> GetPrime2()`, with `beyond` as in `GetPrime1`. -/
def GetPrime2 (beyond : Int × Int) : TrapdoorFunction → Int
  | .rabin _ => beyond.2
  | .invertible f => f.m_q

/-- What one run of `checkRabinValidity` does: the `jboolean` it returns and the
argument tuples of the calls to `utils.SquareRoot` it made, in order. -/
structure ValidityRun where
  valid : Bool
  sqrtCalls : List (Int × Int × Int × Int)
  deriving DecidableEq, Repr

/-- `checkRabinValidity` (lines 131-157) with the calls to `utils.SquareRoot` recorded.
`SquareRoot` is the helper of `Utils`, which the file does not define. -/
def checkRabinValidityRun (SquareRoot : Int → Int → Int → Int → Int) (beyond : Int × Int)
    (pValue : Int) (tpPtr : TrapdoorFunction) : ValidityRun :=
  let value := pValue
  let mod := GetModulus tpPtr
  let p := GetPrime1 beyond tpPtr
  let q := GetPrime2 beyond tpPtr
  if value < mod ∧ value > 0 then
    let square := SquareRoot value mod p q
    if (square * square) % mod = value then
      { valid := true, sqrtCalls := [(value, mod, p, q)] }
    else
      { valid := false, sqrtCalls := [(value, mod, p, q)] }
  else
    { valid := false, sqrtCalls := [] }

/-- The `jboolean` returned by `checkRabinValidity`. -/
def checkRabinValidity (SquareRoot : Int → Int → Int → Int → Int) (beyond : Int × Int)
    (pValue : Int) (tpPtr : TrapdoorFunction) : Bool :=
  (checkRabinValidityRun SquareRoot beyond pValue tpPtr).valid

/-- `initRabinAll` (lines 23-44): allocates an `InvertibleRabinFunction`, calls
`Initialize(modN, m_r, m_s, m_p, m_q, m_u)` on it and returns the pointer. The body has a
single `return` and raises nothing, so the outcome is always `.ok`. `Initialize` is the
Crypto++ method: it maps the six arguments to the state of the object. -/
def initRabinAll (Initialize : Int → Int → Int → Int → Int → Int → InvertibleRabinFunction)
    (mod r s p q u : Int) : Except RabinError TrapdoorFunction :=
  .ok (.invertible (Initialize mod r s p q u))

/-- `initRabinKeySize` (lines 79-91): creates a random pool, allocates an
`InvertibleRabinFunction`, calls `Initialize(rng, numBits)` and returns the pointer.
`Initialize` is the Crypto++ key generation: it either fills the object or fails; the body
catches nothing, so a failure of the callee is the outcome of the native function, and
otherwise the handle of the filled object is returned as it is. -/
def initRabinKeySize
    (Initialize : AutoSeededRandomPool → Int → Except RabinError InvertibleRabinFunction)
    (rng : AutoSeededRandomPool) (numBits : Int) : Except RabinError TrapdoorFunction :=
  match Initialize rng numBits with
  | .ok f => .ok (.invertible f)
  | .error e => .error e

/-- `computeRabin` (lines 164-177): returns `ApplyFunction(element)` of the object. -/
def computeRabin (ApplyFunction : TrapdoorFunction → Int → Int)
    (tpPtr : TrapdoorFunction) (element : Int) : Int :=
  ApplyFunction tpPtr element

/-- Modelled from the spec: `RabinFunction::ApplyFunction` of the Crypto++ library, which
`computeRabin` calls and the file does not define. Section 4.2: `apply(x)` "returns
`x^2 mod n`", a "pure function of public key and input". -/
def ApplyFunction (tpPtr : TrapdoorFunction) (x : Int) : Int :=
  x ^ 2 % GetModulus tpPtr

/-- Modelled from the spec: the six-argument `InvertibleRabinFunction::Initialize` of the
Crypto++ library, which `initRabinAll` calls and the file does not define. Section 4.2:
it "stores full private key". -/
def InitializeAll (n r s p q u : Int) : InvertibleRabinFunction :=
  { m_n := n, m_r := r, m_s := s, m_p := p, m_q := q, m_u := u }

/-- Modelled from the spec: the primality test of the arithmetic layer that key
generation uses (section 5, "primality testing"), here by trial division. -/
def isPrime (c : Nat) : Bool :=
  decide (2 ≤ c) && (List.range (c - 2)).all fun d => c % (d + 2) != 0

/-- Modelled from the spec: modular inverse `a^-1 mod m` of the arithmetic layer
(section 4.1, "fails if gcd(a,m) ≠ 1"): the `u` in `[0, m)` with `u * a ≡ 1 (mod m)`,
if there is one. -/
def inverseMod (a m : Nat) : Option Nat :=
  (List.range m).find? fun u => u * a % m == 1

/-- Modelled from the spec: a candidate of exactly `bits` bits made from one value `w` of
the random source (section 4.2, primes "of roughly `bit_length/2` bits"). -/
def candidate (bits w : Nat) : Nat :=
  2 ^ (bits - 1) + w % 2 ^ (bits - 1)

/-- Modelled from the spec: the bounded random prime search of `init_random`
(section 4.2: "random primes ... each ≡ 3 (mod 4)", "such that `p ≠ q`", "internal retry
bound"). Draw `i` of the source is tried first, `fuel` draws at most; the answer is the
prime found and the index of the next unused draw. `avoid` is the prime already taken. -/
def findPrime (rng : AutoSeededRandomPool) (bits avoid : Nat) : Nat → Nat → Option (Nat × Nat)
  | 0, _ => none
  | fuel + 1, i =>
    let c := candidate bits (rng i)
    if isPrime c && c % 4 == 3 && c != avoid then some (c, i + 1)
    else findPrime rng bits avoid fuel (i + 1)

/-- Modelled from the spec: `init_random(bit_length)`, the work of the Crypto++ call
`Initialize(rng, numBits)` in `initRabinKeySize`, which the file does not define
(section 4.2): two random primes `p`, `q`, each ≡ 3 (mod 4), `p ≠ q`; `n = p*q`,
`u = p^-1 mod q`; `KeyGenerationFailure` when the search does not converge within the
retry bound. The convention deriving `r`, `s` is left open by the spec: `selectors`. -/
def init_random (selectors : Nat → Nat → Int × Int) (retryBound : Nat)
    (rng : AutoSeededRandomPool) (bit_length : Nat) : Except RabinError InvertibleRabinFunction :=
  match findPrime rng (bit_length / 2) 0 retryBound 0 with
  | none => .error .KeyGenerationFailure
  | some (p, i) =>
    match findPrime rng (bit_length / 2) p retryBound i with
    | none => .error .KeyGenerationFailure
    | some (q, _) =>
      match inverseMod p q with
      | none => .error .KeyGenerationFailure
      | some u =>
        .ok ⟨(p : Int) * (q : Int), (selectors p q).1, (selectors p q).2, p, q, u⟩

/-- Modelled from the spec: `init_random` with the argument types of the Crypto++ call
`Initialize(rng, numBits)` of `initRabinKeySize`: the `jint` bit count is the bit length. -/
def InitializeRandom (selectors : Nat → Nat → Int × Int) (retryBound : Nat)
    (rng : AutoSeededRandomPool) (numBits : Int) : Except RabinError InvertibleRabinFunction :=
  init_random selectors retryBound rng numBits.toNat

/-! ## Theorems -/

/-- Outside the range test of `checkRabinValidity` nothing else is evaluated. -/
theorem checkRabinValidityRun_of_not_range (SquareRoot : Int → Int → Int → Int → Int)
    (beyond : Int × Int) (x : Int) (tpPtr : TrapdoorFunction)
    (h : ¬ (x < GetModulus tpPtr ∧ x > 0)) :
    checkRabinValidityRun SquareRoot beyond x tpPtr = ⟨false, []⟩ := by
  unfold checkRabinValidityRun
  simp only [h, if_false]

/-- The returned boolean of `checkRabinValidity`, as a proposition. -/
theorem checkRabinValidity_eq_true_iff (SquareRoot : Int → Int → Int → Int → Int)
    (beyond : Int × Int) (x : Int) (tpPtr : TrapdoorFunction) :
    checkRabinValidity SquareRoot beyond x tpPtr = true ↔
      (x < GetModulus tpPtr ∧ x > 0) ∧
        (SquareRoot x (GetModulus tpPtr) (GetPrime1 beyond tpPtr) (GetPrime2 beyond tpPtr) *
          SquareRoot x (GetModulus tpPtr) (GetPrime1 beyond tpPtr) (GetPrime2 beyond tpPtr)) %
            GetModulus tpPtr = x := by
  unfold checkRabinValidity checkRabinValidityRun
  by_cases hr : x < GetModulus tpPtr ∧ x > 0
  · by_cases hs : (SquareRoot x (GetModulus tpPtr) (GetPrime1 beyond tpPtr)
        (GetPrime2 beyond tpPtr) * SquareRoot x (GetModulus tpPtr) (GetPrime1 beyond tpPtr)
        (GetPrime2 beyond tpPtr)) % GetModulus tpPtr = x
    · simp [hr, hs]
    · simp [hr, hs]
  · simp [hr]

/-- C1. With `ApplyFunction` as the specification words it, `computeRabin` on an engine
holding modulus `n` returns exactly `(x*x) mod n` for every `x` with `0 <= x < n`, for a
public-key object and for a private-key object alike and whatever the selectors `r`, `s`
(and `p`, `q`, `u`) are. -/
theorem computeRabin_eq_square_mod (n r s x : Int) (h0 : 0 ≤ x) (hn : x < n) :
    computeRabin ApplyFunction (.rabin ⟨n, r, s⟩) x = (x * x) % n ∧
      ∀ p q u : Int, computeRabin ApplyFunction (.invertible ⟨n, r, s, p, q, u⟩) x
        = (x * x) % n := by
  have _ := h0
  have _ := hn
  simp [computeRabin, ApplyFunction, GetModulus, sq]

/-- Witness of C1 at `n = 21`, `r = 2`, `s = 5`, `x = 4`. -/
theorem computeRabin_eq_square_mod_witness :
    computeRabin ApplyFunction (.rabin ⟨21, 2, 5⟩) 4 = 16 ∧
      computeRabin ApplyFunction (.invertible ⟨21, 2, 5, 3, 7, 5⟩) 4 = 16 := by
  have h := computeRabin_eq_square_mod 21 2 5 4 (by decide) (by decide)
  exact ⟨h.1, h.2 3 7 5⟩

/-- C2. For every engine object (so every `n`, `p`, `q`), every helper `SquareRoot` and
every `x` with `x <= 0` or `x >= n`, `checkRabinValidity` returns false, and the run makes
no call to `SquareRoot`. -/
theorem checkRabinValidity_false_out_of_range (SquareRoot : Int → Int → Int → Int → Int)
    (beyond : Int × Int) (x : Int) (tpPtr : TrapdoorFunction)
    (h : x ≤ 0 ∨ GetModulus tpPtr ≤ x) :
    checkRabinValidity SquareRoot beyond x tpPtr = false ∧
      (checkRabinValidityRun SquareRoot beyond x tpPtr).sqrtCalls = [] := by
  have hr : ¬ (x < GetModulus tpPtr ∧ x > 0) := by
    rintro ⟨h1, h2⟩
    rcases h with h | h <;> omega
  unfold checkRabinValidity
  rw [checkRabinValidityRun_of_not_range SquareRoot beyond x tpPtr hr]
  exact ⟨rfl, rfl⟩

/-- Witness of C2 at `x = n = 21` on the key `p = 3`, `q = 7`. -/
theorem checkRabinValidity_false_out_of_range_witness :
    checkRabinValidity (fun v _ _ _ => v) (0, 0) 21 (.invertible ⟨21, 1, 1, 3, 7, 5⟩) = false ∧
      (checkRabinValidityRun (fun v _ _ _ => v) (0, 0) 21
        (.invertible ⟨21, 1, 1, 3, 7, 5⟩)).sqrtCalls = [] :=
  checkRabinValidity_false_out_of_range (fun v _ _ _ => v) (0, 0) 21
    (.invertible ⟨21, 1, 1, 3, 7, 5⟩) (Or.inr (by decide))

/-- C10. Whatever `SquareRoot` returns, if `checkRabinValidity` returns true then
`0 < x < n` and some integer `y` has `(y*y) mod n = x`; and the returned boolean is the
same for every choice of the selectors `r`, `s` stored in the object. -/
theorem checkRabinValidity_sound (SquareRoot : Int → Int → Int → Int → Int)
    (beyond : Int × Int) (x : Int) :
    (∀ tpPtr : TrapdoorFunction, checkRabinValidity SquareRoot beyond x tpPtr = true →
        0 < x ∧ x < GetModulus tpPtr ∧ ∃ y : Int, (y * y) % GetModulus tpPtr = x) ∧
      (∀ n r s r' s' : Int,
        checkRabinValidity SquareRoot beyond x (.rabin ⟨n, r, s⟩) =
          checkRabinValidity SquareRoot beyond x (.rabin ⟨n, r', s'⟩)) ∧
      (∀ n r s r' s' p q u : Int,
        checkRabinValidity SquareRoot beyond x (.invertible ⟨n, r, s, p, q, u⟩) =
          checkRabinValidity SquareRoot beyond x (.invertible ⟨n, r', s', p, q, u⟩)) := by
  refine ⟨?_, ?_, ?_⟩
  · intro tpPtr h
    rw [checkRabinValidity_eq_true_iff] at h
    exact ⟨h.1.2, h.1.1, _, h.2⟩
  · intro n r s r' s'
    rfl
  · intro n r s r' s' p q u
    rfl

/-- Witness of C10 at `n = 21`, `x = 4`, with a helper that answers `2`. -/
theorem checkRabinValidity_sound_witness :
    (0 : Int) < 4 ∧ (4 : Int) < 21 ∧ ∃ y : Int, (y * y) % 21 = 4 :=
  (checkRabinValidity_sound (fun _ _ _ _ => 2) (0, 0) 4).1
    (.invertible ⟨21, 1, 1, 3, 7, 5⟩) (by decide)

/-- C7, as the code has it: `initRabinAll` tests nothing. For every six values, also with
`p*q ≠ n`, and every behaviour of the library `Initialize`, it returns the handle of the
object `Initialize` filled; with a storing `Initialize` the object holds the six values as
given. -/
theorem initRabinAll_always_ok (n r s p q u : Int) :
    (∀ Initialize : Int → Int → Int → Int → Int → Int → InvertibleRabinFunction,
        initRabinAll Initialize n r s p q u = .ok (.invertible (Initialize n r s p q u))) ∧
      initRabinAll InitializeAll n r s p q u = .ok (.invertible ⟨n, r, s, p, q, u⟩) :=
  ⟨fun _ => rfl, rfl⟩

/-- C7 fails as stated: with `p = 3`, `q = 7`, `n = 15` (so `p*q ≠ n`) `initRabinAll`
returns an engine holding these values, and no behaviour of `Initialize` makes it fail
with `KeyMismatch`. -/
theorem initRabinAll_no_KeyMismatch :
    (3 : Int) * 7 ≠ 15 ∧
      initRabinAll InitializeAll 15 1 1 3 7 1 = .ok (.invertible ⟨15, 1, 1, 3, 7, 1⟩) ∧
      ¬ ∃ Initialize, initRabinAll Initialize 15 1 1 3 7 1 = .error .KeyMismatch := by
  refine ⟨by decide, rfl, ?_⟩
  rintro ⟨Initialize, h⟩
  simp [initRabinAll] at h

/-- A prime found by `findPrime` is ≡ 3 (mod 4) and differs from `avoid`. -/
theorem findPrime_some (rng : AutoSeededRandomPool) (bits avoid : Nat) :
    ∀ (fuel i c j : Nat), findPrime rng bits avoid fuel i = some (c, j) →
      c % 4 = 3 ∧ c ≠ avoid := by
  intro fuel
  induction fuel with
  | zero => intro i c j h; simp [findPrime] at h
  | succ fuel ih =>
    intro i c j h
    unfold findPrime at h
    by_cases hc : (isPrime (candidate bits (rng i)) && candidate bits (rng i) % 4 == 3
        && candidate bits (rng i) != avoid) = true
    · simp only [hc, if_true, Option.some.injEq, Prod.mk.injEq] at h
      obtain ⟨h1, _⟩ := h
      subst h1
      simp only [Bool.and_eq_true, beq_iff_eq, bne_iff_ne, ne_eq] at hc
      exact ⟨hc.1.2, hc.2⟩
    · simp only [hc] at h
      exact ih _ _ _ h

/-- What `inverseMod` returns is an inverse. -/
theorem inverseMod_some (a m u : Nat) (h : inverseMod a m = some u) : u * a % m = 1 := by
  unfold inverseMod at h
  have := List.find?_some h
  simpa using this

/-- Every key that `init_random` produces has `p ≠ q`, `p % 4 = 3`, `q % 4 = 3`,
`p * q = n` and `(u * p) % q = 1`. -/
theorem init_random_invariants (selectors : Nat → Nat → Int × Int) (retryBound : Nat)
    (rng : AutoSeededRandomPool) (bit_length : Nat) (key : InvertibleRabinFunction)
    (h : init_random selectors retryBound rng bit_length = .ok key) :
    key.m_p ≠ key.m_q ∧ key.m_p % 4 = 3 ∧ key.m_q % 4 = 3 ∧ key.m_p * key.m_q = key.m_n ∧
      (key.m_u * key.m_p) % key.m_q = 1 := by
  unfold init_random at h
  cases hp : findPrime rng (bit_length / 2) 0 retryBound 0 with
  | none => simp [hp] at h
  | some pi =>
    obtain ⟨p, i⟩ := pi
    cases hq : findPrime rng (bit_length / 2) p retryBound i with
    | none => simp [hp, hq] at h
    | some qj =>
      obtain ⟨q, j⟩ := qj
      cases hu : inverseMod p q with
      | none => simp [hp, hq, hu] at h
      | some u =>
        simp only [hp, hq, hu, Except.ok.injEq] at h
        subst h
        have h1 := findPrime_some rng _ _ _ _ _ _ hp
        have h2 := findPrime_some rng _ _ _ _ _ _ hq
        have h3 := inverseMod_some p q u hu
        refine ⟨?_, ?_, ?_, rfl, ?_⟩
        · simp only [ne_eq, Nat.cast_inj]
          exact fun e => h2.2 e.symm
        · have : ((p % 4 : Nat) : Int) = 3 := by rw [h1.1]; rfl
          simpa using this
        · have : ((q % 4 : Nat) : Int) = 3 := by rw [h2.1]; rfl
          simpa using this
        · have : ((u * p % q : Nat) : Int) = 1 := by rw [h3]; rfl
          simpa using this

/-- C8. With the library key generation as the specification words it, every engine that
`initRabinKeySize` returns, at bit length 1024 as at any other and whatever the random
source yields, holds a private key with `p ≠ q`, `p % 4 = 3`, `q % 4 = 3`, `p * q = n` and
`(u * p) % q = 1`. -/
theorem initRabinKeySize_invariants (selectors : Nat → Nat → Int × Int) (retryBound : Nat)
    (rng : AutoSeededRandomPool) (numBits : Int) (tpPtr : TrapdoorFunction)
    (h : initRabinKeySize (InitializeRandom selectors retryBound) rng numBits = .ok tpPtr) :
    ∃ key : InvertibleRabinFunction, tpPtr = .invertible key ∧
      key.m_p ≠ key.m_q ∧ key.m_p % 4 = 3 ∧ key.m_q % 4 = 3 ∧ key.m_p * key.m_q = key.m_n ∧
        (key.m_u * key.m_p) % key.m_q = 1 := by
  unfold initRabinKeySize at h
  cases hk : InitializeRandom selectors retryBound rng numBits with
  | error e => simp [hk] at h
  | ok key =>
    simp only [hk, Except.ok.injEq] at h
    exact ⟨key, h.symm, init_random_invariants selectors retryBound rng numBits.toNat key hk⟩

/-- Witness of C8: at bit length 10 a source whose draws are 3, 7, 7, ... makes
`initRabinKeySize` return the engine with `p = 19`, `q = 23`, `n = 437`, `u = 17`. -/
theorem initRabinKeySize_invariants_witness :
    initRabinKeySize (InitializeRandom (fun _ _ => (1, 1)) 4)
        (fun i => if i = 0 then 3 else 7) 10 = .ok (.invertible ⟨437, 1, 1, 19, 23, 17⟩) ∧
      ∃ key : InvertibleRabinFunction,
        TrapdoorFunction.invertible ⟨437, 1, 1, 19, 23, 17⟩ = .invertible key ∧
        key.m_p ≠ key.m_q ∧ key.m_p % 4 = 3 ∧ key.m_q % 4 = 3 ∧ key.m_p * key.m_q = key.m_n ∧
          (key.m_u * key.m_p) % key.m_q = 1 :=
  ⟨rfl, initRabinKeySize_invariants (fun _ _ => (1, 1)) 4 (fun i => if i = 0 then 3 else 7) 10
    (.invertible ⟨437, 1, 1, 19, 23, 17⟩) rfl⟩

end Scapi
